import Mathlib

/-!
Verification development for the blink-data-pipeline repository.

The incremental-ingestion and frame-sampling core is shallowly embedded here:
  * `src/ingest.py`   — cursor state store (`state.json`), the "since" window
    formatter `format_since`, and the fetch cycle `ingest_new_clips`;
  * `src/extract_frames.py` — filename date parsing and the frame sampler
    `extract_frames_from_folder`.

Python `datetime` values are embedded as records of naturals; Python machine
floats coming out of OpenCV (`fps`) are embedded as rationals (every concrete
value used below, e.g. 29.75, is exactly representable as a binary float, so
the rational computation coincides with the float one); fallible Python code
is embedded with `Except`, and filesystem / external effects are made explicit
(a state-file value threaded through the fetch cycle, and an output record of
created directories, written frames and log lines for the sampler).
-/

/-- Embeds Python `datetime.datetime`: a plain record of the seven fields.
Python's constructor enforces 1 ≤ year ≤ 9999, 1 ≤ month ≤ 12, a calendar-valid
day, hour ≤ 23, minute ≤ 59, second ≤ 59, microsecond ≤ 999999; on this model
that domain is the predicate `ValidDT` below. -/
structure DT where
  year : Nat
  month : Nat
  day : Nat
  hour : Nat
  minute : Nat
  second : Nat
  microsecond : Nat
deriving DecidableEq, Repr

/-- Gregorian leap-year test, as Python's `calendar.isleap` / `datetime`. -/
def isLeap (y : Nat) : Bool :=
  y % 4 == 0 && (y % 100 != 0 || y % 400 == 0)

/-- Days in a month of the proleptic Gregorian calendar. -/
def daysInMonth (y m : Nat) : Nat :=
  if m = 2 then (if isLeap y then 29 else 28)
  else if m = 4 ∨ m = 6 ∨ m = 9 ∨ m = 11 then 30
  else 31

/-- The invariant Python's `datetime` constructor enforces on its fields. -/
def ValidDT (dt : DT) : Prop :=
  1 ≤ dt.year ∧ dt.year ≤ 9999 ∧
  1 ≤ dt.month ∧ dt.month ≤ 12 ∧
  1 ≤ dt.day ∧ dt.day ≤ daysInMonth dt.year dt.month ∧
  dt.hour ≤ 23 ∧ dt.minute ≤ 59 ∧ dt.second ≤ 59 ∧ dt.microsecond ≤ 999999

instance (dt : DT) : Decidable (ValidDT dt) := by
  unfold ValidDT; infer_instance

/-- Two-character zero-padded decimal field, i.e. C's `%02d` restricted to the
values a `datetime` field can take (`n < 100`), as produced by `strftime`'s
`%m`, `%d`, `%H`, `%M`, `%S`. -/
def twoDig (n : Nat) : String :=
  String.mk [Nat.digitChar (n / 10 % 10), Nat.digitChar (n % 10)]

/-- Four-character zero-padded decimal field, i.e. `%04d` restricted to
`n < 10000`, as produced by `strftime`'s `%Y` (years are at most 9999). -/
def fourDig (n : Nat) : String :=
  String.mk [Nat.digitChar (n / 1000 % 10), Nat.digitChar (n / 100 % 10),
             Nat.digitChar (n / 10 % 10), Nat.digitChar (n % 10)]

/-- `ingest.format_since` (src/ingest.py:32-41): `None ↦ None`, otherwise
`dt.strftime("%Y/%m/%d %H:%M")`. -/
def format_since : Option DT → Option String
  | none => none
  | some dt =>
      some (fourDig dt.year ++ "/" ++ twoDig dt.month ++ "/" ++ twoDig dt.day
            ++ " " ++ twoDig dt.hour ++ ":" ++ twoDig dt.minute)

/-- Reads the five numeric fields back out of a string, succeeding exactly on
strings of the shape `YYYY/MM/DD HH:MM`: sixteen characters, digits in the
numeric positions, the literal separators `/`, `/`, a space and `:` in
positions 4, 7, 10 and 13.  Used to state that `format_since` meets its
wire-format contract. -/
def sinceFieldsChars : List Char → Option (Nat × Nat × Nat × Nat × Nat)
  | [y1, y2, y3, y4, a, m1, m2, b, d1, d2, c, h1, h2, e, n1, n2] =>
      if y1.isDigit ∧ y2.isDigit ∧ y3.isDigit ∧ y4.isDigit ∧
         m1.isDigit ∧ m2.isDigit ∧ d1.isDigit ∧ d2.isDigit ∧
         h1.isDigit ∧ h2.isDigit ∧ n1.isDigit ∧ n2.isDigit ∧
         a = '/' ∧ b = '/' ∧ c = ' ' ∧ e = ':' then
        some (((y1.toNat - 48) * 1000 + (y2.toNat - 48) * 100 +
                 (y3.toNat - 48) * 10 + (y4.toNat - 48),
               (m1.toNat - 48) * 10 + (m2.toNat - 48),
               (d1.toNat - 48) * 10 + (d2.toNat - 48),
               (h1.toNat - 48) * 10 + (h2.toNat - 48),
               (n1.toNat - 48) * 10 + (n2.toNat - 48)))
      else none
  | _ => none

/-- `sinceFieldsChars` on the characters of a string. -/
def sinceFields (s : String) : Option (Nat × Nat × Nat × Nat × Nat) :=
  sinceFieldsChars s.data

/-- `s` is exactly of the wire form `YYYY/MM/DD HH:MM`. -/
def isSinceForm (s : String) : Bool :=
  (sinceFields s).isSome

/-- `now - timedelta(days=1)` (src/ingest.py:56) on the proleptic Gregorian
calendar, for datetimes with `day ≥ 1` (Python would raise `OverflowError`
only below `datetime.min`, year 1 Jan 1, which `ValidDT` excludes from every
statement that cares).  Time-of-day fields are untouched, as with
`timedelta(days=1)`. -/
def prevDay (dt : DT) : DT :=
  if 1 < dt.day then { dt with day := dt.day - 1 }
  else if 1 < dt.month then
    { dt with month := dt.month - 1, day := daysInMonth dt.year (dt.month - 1) }
  else
    { dt with year := dt.year - 1, month := 12, day := 31 }

/-- `.replace(hour=9, minute=0, second=0, microsecond=0)` (src/ingest.py:57). -/
def at9am (dt : DT) : DT :=
  { dt with hour := 9, minute := 0, second := 0, microsecond := 0 }

/-- The `since` computation of `ingest_new_clips` (src/ingest.py:55-59):
yesterday at 09:00 local time, formatted for the vendor API.  It is a function
of `now` alone — the persisted cursor does not enter it. -/
def cycleSince (now : DT) : Option String :=
  format_since (some (at9am (prevDay now)))

/-- The JSON value found under the `"last_downloaded_at"` key of `state.json`.
`null` also stands for an absent key: `dict.get` returns `None` in both cases
and nothing downstream distinguishes them.  `other` is any non-null,
non-string JSON value (a number, list, …). -/
inductive JVal where
  | null
  | str (s : String)
  | other
deriving DecidableEq, Repr

/-- The backing store behind `state.json` as `load_state` can observe it:
missing file, file whose contents `json.load` rejects, or a parsed object
with its `last_downloaded_at` value. -/
inductive StateFile where
  | absent
  | invalidJson
  | valid (last : JVal)
deriving DecidableEq, Repr

/-- `ingest.load_state` (src/ingest.py:86-101).  A missing file yields the
default `{"last_downloaded_at": None}`; an existing file is handed to
`json.load`, whose `JSONDecodeError` on malformed contents propagates —
there is no try/except around it. -/
def load_state : StateFile → Except String JVal
  | .absent => .ok .null
  | .invalidJson => .error "json.JSONDecodeError"
  | .valid last => .ok last

/-- Decimal digit value of a character, `none` on non-digits. -/
def digitVal (c : Char) : Option Nat :=
  if c.isDigit then some (c.toNat - 48) else none

/-- Numeric value of a list of decimal digit characters. -/
def charsToNat (l : List Char) : Nat :=
  l.foldl (fun a c => 10 * a + (c.toNat - 48)) 0

/-- A fixed-width all-digit field: `some` of its value when `l` is exactly
`w` digit characters. -/
def fixedDigits (w : Nat) (l : List Char) : Option Nat :=
  if l.length = w ∧ l.all (·.isDigit) then some (charsToNat l) else none

/-- `datetime.fromisoformat` (as called at src/ingest.py:125) on the strings
this program is concerned with: `YYYY-MM-DD`, optionally followed by a single
separator character and `HH:MM` or `HH:MM:SS`, with the usual range checks.
(The full Python grammar additionally accepts fractional seconds and UTC
offsets; the program itself only ever writes `isoformat(timespec="seconds")`
strings, which this model parses exactly, and every claim below uses the
parser only through "parses" / "fails to parse" at concrete inputs inside
this common core.) -/
def fromisoformat (s : String) : Option DT := do
  let l := s.data
  let datePart := l.take 10
  let rest := l.drop 10
  let (y, mo, d) ← match datePart with
    | [y1, y2, y3, y4, a, m1, m2, b, d1, d2] =>
        if a = '-' ∧ b = '-' then do
          let y ← fixedDigits 4 [y1, y2, y3, y4]
          let mo ← fixedDigits 2 [m1, m2]
          let d ← fixedDigits 2 [d1, d2]
          pure (y, mo, d)
        else none
    | _ => none
  let (h, mi, sec) ← match rest with
    | [] => pure (0, 0, 0)
    | _sep :: time =>
        match time with
        | [h1, h2, c1, n1, n2] =>
            if c1 = ':' then do
              let h ← fixedDigits 2 [h1, h2]
              let mi ← fixedDigits 2 [n1, n2]
              pure (h, mi, 0)
            else none
        | [h1, h2, c1, n1, n2, c2, s1, s2] =>
            if c1 = ':' ∧ c2 = ':' then do
              let h ← fixedDigits 2 [h1, h2]
              let mi ← fixedDigits 2 [n1, n2]
              let sec ← fixedDigits 2 [s1, s2]
              pure (h, mi, sec)
            else none
        | _ => none
  let dt : DT := ⟨y, mo, d, h, mi, sec, 0⟩
  if ValidDT dt then pure dt else none

/-- `dt.isoformat(timespec="seconds")` (src/ingest.py:136). -/
def isoformatSeconds (dt : DT) : String :=
  fourDig dt.year ++ "-" ++ twoDig dt.month ++ "-" ++ twoDig dt.day ++ "T"
    ++ twoDig dt.hour ++ ":" ++ twoDig dt.minute ++ ":" ++ twoDig dt.second

/-- `ingest.get_last_downloaded_at` (src/ingest.py:113-128).  The Bool records
whether the "Invalid last_downloaded_at" warning was logged.  A missing or
null value yields `none`; a string value is parsed, `ValueError` being turned
into `none` plus the warning; a non-string value would reach
`datetime.fromisoformat` and raise `TypeError`, which the `except ValueError`
does not catch; and a `load_state` error propagates. -/
def get_last_downloaded_at (f : StateFile) : Except String (Option DT × Bool) :=
  match load_state f with
  | .error e => .error e
  | .ok .null => .ok (none, false)
  | .ok (.str ts) =>
      match fromisoformat ts with
      | some dt => .ok (some dt, false)
      | none => .ok (none, true)
  | .ok .other => .error "TypeError"

/-- `ingest.set_last_downloaded_at` (src/ingest.py:131-137): re-reads the
state, overwrites the key with `dt.isoformat(timespec="seconds")`, saves.
Defined for completeness of the state-store embedding; `ingest_new_clips`
never calls it. -/
def set_last_downloaded_at (f : StateFile) (dt : DT) : Except String StateFile :=
  match load_state f with
  | .error e => .error e
  | .ok _ => .ok (.valid (.str (isoformatSeconds dt)))

/-- The filesystem state the fetch cycle can touch: the persisted state file
and whether `data/raw_clips` exists. -/
structure IngestFS where
  stateFile : StateFile
  rawDirExists : Bool
deriving DecidableEq, Repr

/-- Result of one run of `ingest_new_clips`: the filesystem afterwards, the
`since` argument handed to `blink.download_videos`, the camera list handed to
it, and whether the run returned normally or propagated an exception. -/
structure CycleResult where
  fs : IngestFS
  sincePassed : Option String
  camerasPassed : List String
  outcome : Except String Unit
deriving Repr

/-- `ingest.ingest_new_clips` (src/ingest.py:43-84), with the external
camera-service capability abstracted into `fetchOk`: `false` means the vendor
call (client login or `download_videos`) raises.  The body computes the fixed
yesterday-09:00 window from `now` (lines 55-59), creates the raw-clip
directory (line 71), performs the vendor call (lines 74-79), and returns; it
contains no statement that reads or writes `state.json`, so the state file is
returned unchanged on every path. -/
def ingest_new_clips (fs : IngestFS) (now : DT) (fetchOk : Bool) : CycleResult :=
  let sinceStr := cycleSince now
  let fs1 : IngestFS := { fs with rawDirExists := true }
  { fs := fs1
    sincePassed := sinceStr
    camerasPassed := ["sort_C15"]
    outcome := if fetchOk then .ok () else .error "download_videos raised" }

/-- Python `str.split(sep)` for a one-character separator: keeps empty
pieces, `"" ↦ [""]`. -/
def splitChar (sep : Char) : List Char → List (List Char)
  | [] => [[]]
  | c :: cs =>
      match splitChar sep cs with
      | [] => [[]]
      | h :: t => if c = sep then [] :: h :: t else (c :: h) :: t

/-- `os.path.splitext(filename)[0]` for a bare filename (no path separators):
everything before the last dot, unless every character before that dot is
itself a dot (CPython's leading-dot rule, so `".bashrc"` keeps its name). -/
def splitextRoot (l : List Char) : List Char :=
  match l.findIdx? (· = '.'), (l.reverse.findIdx? (· = '.')) with
  | some _, some j =>
      let i := l.length - 1 - j
      if (l.take i).all (· = '.') then l else l.take i
  | _, _ => l

/-- The `%Y` pattern of `_strptime`: exactly four digit characters. -/
def yearField (l : List Char) : Option Nat := fixedDigits 4 l

/-- A one-or-two-digit field of `_strptime` (`%m`, `%d`, `%H`, `%M`, `%S` all
match one or two digits), constrained to `lo ≤ v ≤ hi` exactly as the
corresponding regex alternation does. -/
def shortField (lo hi : Nat) (l : List Char) : Option Nat :=
  if l ≠ [] ∧ l.length ≤ 2 ∧ l.all (·.isDigit) then
    let v := charsToNat l
    -- two-digit regexes exclude "00" exactly when lo = 1, which the value
    -- check below already captures; no further shape condition is needed
    if lo ≤ v ∧ v ≤ hi then some v else none
  else none

/-- `datetime.strptime(s, "%Y-%m-%d")` (src/extract_frames.py:32): the
compiled regex must match the whole string and the resulting field values
must form a constructible date (`datetime` raises `ValueError` otherwise,
which the caller catches — so "succeeds" here means exactly "no exception"). -/
def strptimeYMD (l : List Char) : Option (Nat × Nat × Nat) :=
  match splitChar '-' l with
  | [ys, ms, ds] => do
      let y ← yearField ys
      let m ← shortField 1 12 ms
      let d ← shortField 1 31 ds
      if 1 ≤ y ∧ d ≤ daysInMonth y m then pure (y, m, d) else none
  | _ => none

/-- `datetime.strptime(s, "%Y-%m-%d_%H-%M-%S")` (src/extract_frames.py:39),
keeping only the date part, which is all the caller uses. -/
def strptimeYMDHMS (l : List Char) : Option (Nat × Nat × Nat) :=
  match splitChar '_' l with
  | [datePart, timePart] => do
      let (y, m, d) ← strptimeYMD datePart
      match splitChar '-' timePart with
      | [hs, ms2, ss] => do
          let _ ← shortField 0 23 hs
          let _ ← shortField 0 59 ms2
          let _ ← shortField 0 59 ss
          pure (y, m, d)
      | _ => none
  | _ => none

/-- `dt.strftime("%Y-%m-%d")` (src/extract_frames.py:33 and 40). -/
def formatYMD : Nat × Nat × Nat → String
  | (y, m, d) => fourDig y ++ "-" ++ twoDig m ++ "-" ++ twoDig d

/-- `extract_frames.parse_date_from_filename` (src/extract_frames.py:15-46):
drop the extension, then (a) return the first underscore-delimited segment
that parses as `%Y-%m-%d`; else (b) parse the trailing 19 characters (the
whole name when shorter) as `%Y-%m-%d_%H-%M-%S`; else (c) `"unknown_date"`. -/
def parse_date_from_filename (filename : String) : String :=
  let name := splitextRoot filename.data
  match (splitChar '_' name).findSome? strptimeYMD with
  | some ymd => formatYMD ymd
  | none =>
      match strptimeYMDHMS (name.drop (name.length - 19)) with
      | some ymd => formatYMD ymd
      | none => "unknown_date"

/-- ASCII lower-casing of a character, as `str.lower` acts on the ASCII
range (the only characters in this repository's filenames). -/
def lowerChar (c : Char) : Char :=
  if 'A' ≤ c ∧ c ≤ 'Z' then Char.ofNat (c.toNat + 32) else c

/-- `f.lower().endswith((".mp4", ".mov"))` (src/extract_frames.py:64-66). -/
def matchesExt (name : String) : Bool :=
  let low := name.data.map lowerChar
  List.isSuffixOf ".mp4".data low || List.isSuffixOf ".mov".data low

/-- Python string `≤` on code points, on the underlying character lists. -/
def strLe : List Char → List Char → Bool
  | [], _ => true
  | _ :: _, [] => false
  | c :: cs, d :: ds =>
      if c.toNat = d.toNat then strLe cs ds else decide (c.toNat < d.toNat)

/-- One video file of the raw-clip directory, carrying the properties the
sampler reads from OpenCV: whether `VideoCapture.isOpened()`, the reported
`CAP_PROP_FPS`, width and height, and how many frames `video.read()`
delivers before reporting failure. -/
structure Video where
  name : String
  openable : Bool
  fps : ℚ
  width : Int
  height : Int
  frames : Nat
deriving DecidableEq, Repr

/-- Insert a video into a name-sorted list, keeping sortedness. -/
def insertSorted (v : Video) : List Video → List Video
  | [] => [v]
  | w :: ws =>
      if strLe v.name.data w.name.data then v :: w :: ws
      else w :: insertSorted v ws

/-- `sorted(...)` on filenames (src/extract_frames.py:65): insertion sort by
Python's code-point string order. -/
def sortVideos : List Video → List Video
  | [] => []
  | v :: vs => insertSorted v (sortVideos vs)

/-- Python `int(x)` on a (model) rational: truncation toward zero, as applied
to `fps * interval_seconds` at src/extract_frames.py:105. -/
def pyInt (q : ℚ) : Int :=
  q.num.tdiv q.den

/-- `int(fps * interval_seconds)` (src/extract_frames.py:105), computed on the
raw fraction: `fps * k` is the rational `(fps.num * k) / fps.den`, and
truncation toward zero does not care whether that fraction is reduced —
`strideOf_eq_pyInt` below proves this equal to `pyInt (fps * k)` literally. -/
def strideOf (fps : ℚ) (k : Int) : Int :=
  (fps.num * k).tdiv fps.den

/-- Python's format spec `{n:0wd}`: decimal, zero-padded on the left to at
least `w` characters. -/
def padZ (w n : Nat) : String :=
  let s := Nat.repr n
  String.mk (List.replicate (w - s.length) '0') ++ s

/-- The configuration parameters of `extract_frames_from_folder`
(src/extract_frames.py:49-56). -/
structure Cfg where
  camera_name : String
  interval_seconds : Int
  expected_width : Int
  expected_height : Int
deriving DecidableEq, Repr

/-- The defaults of `extract_frames_from_folder`'s signature. -/
def cfg0 : Cfg := ⟨"sort_C15", 1, 1920, 1080⟩

/-- One frame image written by the sampler: source video, date directory,
zero-based frame index within the video, the counter value used, and the
file name written. -/
structure SavedFrame where
  video : String
  date : String
  frameIdx : Nat
  seq : Nat
  fname : String
deriving DecidableEq, Repr

/-- The observable output of a sampler run: the shared counter, the
`(camera, date)` directories created so far (in creation order), the frames
written (in write order), and the skip/warning lines printed. -/
structure ExtractState where
  counter : Nat
  dirs : List (String × String)
  saved : List SavedFrame
  skips : List String
deriving DecidableEq, Repr

/-- Sampler state at the top of the per-file loop (counter starts at 1,
src/extract_frames.py:75). -/
def initES : ExtractState := ⟨1, [], [], []⟩

/-- The read loop of src/extract_frames.py:109-121 on one opened video:
`remaining` frames still to be read at index `idx`, counter at `c`.  Each
read frame with `frame_idx % frame_interval == 0` is saved and bumps the
counter.  When `m = 0` the first evaluation of `%` raises
`ZeroDivisionError` (Python's `%` by zero), before any frame is saved; a
video yielding no frames never evaluates `%`.  For `m ≠ 0` the `== 0` test
agrees with Lean's `emod` (both say exactly `m ∣ idx`, whatever the sign
convention). -/
def sampleLoop (m : Int) : Nat → Nat → Nat → Except String (List (Nat × Nat) × Nat)
  | _, c, 0 => .ok ([], c)
  | idx, c, r + 1 =>
      if m = 0 then .error "ZeroDivisionError"
      else if (idx : Int) % m = 0 then
        match sampleLoop m (idx + 1) (c + 1) r with
        | .ok (l, c') => .ok ((idx, c) :: l, c')
        | .error e => .error e
      else sampleLoop m (idx + 1) c r

/-- The body of the per-file loop of `extract_frames_from_folder`
(src/extract_frames.py:77-124): derive the date, create the output directory
(before the video is even opened), then skip on open failure, skip on
resolution mismatch, else compute `frame_interval = int(fps*interval)` and run
the read loop.  An uncaught exception from the loop aborts with the effects
performed so far. -/
def processVideo (cfg : Cfg) (st : ExtractState) (v : Video) :
    ExtractState × Option String :=
  let date := parse_date_from_filename v.name
  let st := { st with dirs := st.dirs ++ [(cfg.camera_name, date)] }
  if !v.openable then
    ({ st with skips := st.skips ++ ["Could not open " ++ v.name] }, none)
  else if v.width ≠ cfg.expected_width ∨ v.height ≠ cfg.expected_height then
    ({ st with skips := st.skips ++ ["resolution mismatch: " ++ v.name] }, none)
  else
    let m := strideOf v.fps cfg.interval_seconds
    match sampleLoop m 0 st.counter v.frames with
    | .error e => (st, some e)
    | .ok (saves, c') =>
        ({ st with
            counter := c'
            saved := st.saved ++ saves.map (fun p =>
              ⟨v.name, date, p.1, p.2, "c15_" ++ padZ 6 p.2 ++ ".jpg"⟩) },
         none)

/-- The per-file loop over the sorted file list; an uncaught exception from
one file stops the batch there (effects so far persist). -/
def processFiles (cfg : Cfg) : ExtractState → List Video → ExtractState × Option String
  | st, [] => (st, none)
  | st, v :: vs =>
      match processVideo cfg st v with
      | (st', none) => processFiles cfg st' vs
      | (st', some e) => (st', some e)

/-- `extract_frames.extract_frames_from_folder` (src/extract_frames.py:49-127):
filter the directory listing to `.mp4`/`.mov` (case-insensitively), sort by
filename, process in order with the shared counter starting at 1. -/
def extract_frames_from_folder (cfg : Cfg) (entries : List Video) :
    ExtractState × Option String :=
  processFiles cfg initES (sortVideos (entries.filter (fun v => matchesExt v.name)))

/-- Pair each list element with consecutive counter values starting at `c` —
the specification-side description of what the save loop produces. -/
def withSeq (c : Nat) : List Nat → List (Nat × Nat)
  | [] => []
  | i :: is => (i, c) :: withSeq (c + 1) is

/-- The frame indices the loop saves: multiples of `m` below `n`. -/
def hitIdxs (m : Int) (idx r : Nat) : List Nat :=
  (List.range' idx r).filter (fun i => decide ((i : Int) % m = 0))

/-- A 29.75 fps video (29.75 = 119/4 is exactly representable as a binary
float, so OpenCV would report it exactly): 31 readable frames, matching
resolution. -/
def vTrunc : Video := ⟨"v_2025-11-20_09-10-11.mp4", true, mkRat 119 4, 1920, 1080, 31⟩

/-- A zero-frame-rate video with one readable frame and matching
resolution — the C6 failing input. -/
def vZeroFps : Video := ⟨"a_2025-11-20_09-10-11.mp4", true, 0, 1920, 1080, 1⟩

/-- A healthy 30 fps video sorting after `vZeroFps`, with a different date. -/
def wGood : Video := ⟨"b_2025-11-21_09-10-11.mp4", true, 30, 1920, 1080, 61⟩

/-- A video whose declared resolution (1280×720) mismatches the configured
1920×1080. -/
def vMism : Video := ⟨"m_2025-11-20_09-10-11.mp4", true, 30, 1280, 720, 50⟩

/-- Scenario video A of claim C8: 75 frames at 30 fps — samples 3 frames
(indices 0, 30, 60). -/
def vA8 : Video := ⟨"a_2025-11-20_09-00-00.mp4", true, 30, 1920, 1080, 75⟩

/-- Scenario video B of claim C8: lexicographically after A, a different
duration (61 frames), also sampling 3 frames. -/
def vB8 : Video := ⟨"b_2025-11-20_09-05-00.mp4", true, 30, 1920, 1080, 61⟩

/-! ### Helper lemmas -/

theorem ediv_congr_of_cross_eq {a b a' b' : ℤ} (hb : 0 < b) (hb' : 0 < b')
    (h : a * b' = a' * b) : a / b = a' / b' := by
  have key : ∀ c : ℤ, c ≤ a / b ↔ c ≤ a' / b' := by
    intro c
    rw [Int.le_ediv_iff_mul_le hb, Int.le_ediv_iff_mul_le hb']
    constructor
    · intro hcb
      have : c * b * b' ≤ a * b' := by
        exact mul_le_mul_of_nonneg_right hcb (le_of_lt hb')
      rw [h] at this
      have hb0 : (0 : ℤ) < b := hb
      nlinarith
    · intro hcb
      have : c * b' * b ≤ a' * b := by
        exact mul_le_mul_of_nonneg_right hcb (le_of_lt hb)
      rw [← h] at this
      nlinarith
  have h1 : a / b ≤ a' / b' := (key (a / b)).mp le_rfl
  have h2 : a' / b' ≤ a / b := by
    have := (key (a' / b')).mpr le_rfl
    exact this
  omega

theorem tdiv_congr_of_cross_eq {a b a' b' : ℤ} (hb : 0 < b) (hb' : 0 < b')
    (h : a * b' = a' * b) : a.tdiv b = a'.tdiv b' := by
  rcases le_or_lt 0 a with ha | ha
  · have ha' : 0 ≤ a' := by nlinarith
    rw [Int.tdiv_eq_ediv ha (le_of_lt hb), Int.tdiv_eq_ediv ha' (le_of_lt hb')]
    exact ediv_congr_of_cross_eq hb hb' h
  · have ha' : 0 ≤ -a' := by nlinarith
    have hna : 0 ≤ -a := by omega
    have hcross : (-a) * b' = (-a') * b := by linarith
    have := ediv_congr_of_cross_eq hb hb' hcross
    rw [← Int.tdiv_eq_ediv hna (le_of_lt hb), ← Int.tdiv_eq_ediv ha' (le_of_lt hb')] at this
    rw [Int.neg_tdiv, Int.neg_tdiv] at this
    omega

/-- The stride computed by `processVideo` is literally `int(fps * interval)`:
the raw-fraction computation agrees with truncating the normalized product
rational. -/
theorem strideOf_eq_pyInt (fps : ℚ) (k : ℤ) :
    strideOf fps k = pyInt (fps * (k : ℚ)) := by
  set q : ℚ := fps * (k : ℚ) with hq
  have hden : (0 : ℤ) < (fps.den : ℤ) := by exact_mod_cast fps.den_pos
  have hqden : (0 : ℤ) < (q.den : ℤ) := by exact_mod_cast q.den_pos
  have hmk : q = ((fps.num * k : ℤ) : ℚ) / ((fps.den : ℤ) : ℚ) := by
    rw [hq, Rat.mul_eq_mkRat, Rat.num_intCast, Rat.den_intCast, mul_one,
      Rat.mkRat_eq_div]
    norm_num
  have hcross : q.num * (fps.den : ℤ) = fps.num * k * (q.den : ℤ) := by
    have h1 : ((q.num : ℚ) / (q.den : ℚ)) = ((fps.num * k : ℤ) : ℚ) / ((fps.den : ℤ) : ℚ) := by
      rw [Rat.num_div_den]; exact hmk
    have h2 : (q.num : ℚ) * ((fps.den : ℤ) : ℚ) = ((fps.num * k : ℤ) : ℚ) * (q.den : ℚ) := by
      rw [div_eq_div_iff (by positivity) (by positivity)] at h1
      exact_mod_cast h1
    exact_mod_cast h2
  unfold strideOf pyInt
  exact (tdiv_congr_of_cross_eq hqden hden hcross).symm

theorem strLe_total : ∀ a b : List Char, strLe a b = true ∨ strLe b a = true
  | [], _ => by left; rfl
  | _ :: _, [] => by right; rfl
  | c :: cs, d :: ds => by
      by_cases h : c.toNat = d.toNat
      · have h' : d.toNat = c.toNat := h.symm
        rcases strLe_total cs ds with ih | ih
        · left; simp [strLe, h, ih]
        · right; simp [strLe, h', ih]
      · rcases Nat.lt_or_ge c.toNat d.toNat with hlt | hge
        · left; simp [strLe, h, hlt]
        · have h' : ¬ d.toNat = c.toNat := fun e => h e.symm
          have hlt : d.toNat < c.toNat := by omega
          right; simp [strLe, h', hlt]

theorem strLe_trans : ∀ a b c : List Char,
    strLe a b = true → strLe b c = true → strLe a c = true
  | [], _, _ => by intro _ _; rfl
  | x :: xs, [], _ => by intro h _; simp [strLe] at h
  | x :: xs, y :: ys, [] => by intro _ h; simp [strLe] at h
  | x :: xs, y :: ys, z :: zs => by
      intro h1 h2
      by_cases hxy : x.toNat = y.toNat <;> by_cases hyz : y.toNat = z.toNat
      · simp only [strLe, if_pos hxy] at h1
        simp only [strLe, if_pos hyz] at h2
        have hxz : x.toNat = z.toNat := hxy.trans hyz
        simp only [strLe, if_pos hxz]
        exact strLe_trans xs ys zs h1 h2
      · simp only [strLe, if_pos hxy] at h1
        simp only [strLe, if_neg hyz] at h2
        have hlt : y.toNat < z.toNat := by
          by_contra hc
          simp [decide_eq_true_eq] at h2; omega
        have : x.toNat < z.toNat := by omega
        have hne : ¬ x.toNat = z.toNat := by omega
        simp [strLe, hne, this]
      · simp only [strLe, if_neg hxy] at h1
        simp only [strLe, if_pos hyz] at h2
        have hlt : x.toNat < y.toNat := by
          by_contra hc
          simp [decide_eq_true_eq] at h1; omega
        have : x.toNat < z.toNat := by omega
        have hne : ¬ x.toNat = z.toNat := by omega
        simp [strLe, hne, this]
      · simp only [strLe, if_neg hxy] at h1
        simp only [strLe, if_neg hyz] at h2
        have hlt1 : x.toNat < y.toNat := by
          by_contra hc
          simp [decide_eq_true_eq] at h1; omega
        have hlt2 : y.toNat < z.toNat := by
          by_contra hc
          simp [decide_eq_true_eq] at h2; omega
        have : x.toNat < z.toNat := by omega
        have hne : ¬ x.toNat = z.toNat := by omega
        simp [strLe, hne, this]

/-- The name order used to state sortedness of the processing sequence. -/
def nameLe (a b : Video) : Prop := strLe a.name.data b.name.data = true

theorem perm_insertSorted (v : Video) :
    ∀ l : List Video, (insertSorted v l).Perm (v :: l)
  | [] => List.Perm.refl _
  | w :: ws => by
      unfold insertSorted
      by_cases h : strLe v.name.data w.name.data = true
      · simp [h]
      · simp only [h, if_false]
        exact ((perm_insertSorted v ws).cons w).trans (List.Perm.swap v w ws)

theorem sortVideos_perm : ∀ l : List Video, (sortVideos l).Perm l
  | [] => List.Perm.refl _
  | v :: vs => by
      unfold sortVideos
      exact (perm_insertSorted v (sortVideos vs)).trans ((sortVideos_perm vs).cons v)

theorem pairwise_insertSorted (v : Video) :
    ∀ l : List Video, l.Pairwise nameLe → (insertSorted v l).Pairwise nameLe
  | [], _ => by simp [insertSorted, List.pairwise_cons]
  | w :: ws, hp => by
      rcases List.pairwise_cons.mp hp with ⟨hw, hws⟩
      unfold insertSorted
      by_cases h : strLe v.name.data w.name.data = true
      · simp only [h, if_true]
        refine List.pairwise_cons.mpr ⟨?_, hp⟩
        intro a ha
        rcases List.mem_cons.mp ha with rfl | ha
        · exact h
        · exact strLe_trans _ _ _ h (hw a ha)
      · simp only [h, if_false]
        refine List.pairwise_cons.mpr ⟨?_, pairwise_insertSorted v ws hws⟩
        intro a ha
        have hmem := ((perm_insertSorted v ws).mem_iff).mp ha
        rcases List.mem_cons.mp hmem with rfl | ha'
        · rcases strLe_total w.name.data a.name.data with hh | hh
          · exact hh
          · exact absurd hh h
        · exact hw a ha'

theorem sortVideos_pairwise : ∀ l : List Video, (sortVideos l).Pairwise nameLe
  | [] => List.Pairwise.nil
  | v :: vs => pairwise_insertSorted v (sortVideos vs) (sortVideos_pairwise vs)

theorem withSeq_map_fst (c : Nat) : ∀ l : List Nat, (withSeq c l).map Prod.fst = l
  | [] => rfl
  | i :: is => by simp [withSeq, withSeq_map_fst (c + 1) is]

theorem withSeq_map_snd : ∀ (c : Nat) (l : List Nat),
    (withSeq c l).map Prod.snd = List.range' c l.length
  | _, [] => rfl
  | c, i :: is => by simp [withSeq, withSeq_map_snd (c + 1) is, List.range'_succ]

theorem withSeq_length (c : Nat) : ∀ l : List Nat, (withSeq c l).length = l.length
  | [] => rfl
  | i :: is => by simp [withSeq, withSeq_length (c + 1) is]

theorem hitIdxs_nil (m : Int) (idx : Nat) : hitIdxs m idx 0 = [] := rfl

theorem hitIdxs_succ (m : Int) (idx r : Nat) :
    hitIdxs m idx (r + 1) =
      (if (idx : Int) % m = 0 then [idx] else []) ++ hitIdxs m (idx + 1) r := by
  unfold hitIdxs
  rw [List.range'_succ, List.filter_cons]
  by_cases h : (idx : Int) % m = 0
  · rw [if_pos (by simpa using h), if_pos h, List.singleton_append]
  · rw [if_neg (by simpa using h), if_neg h, List.nil_append]

/-- For a nonzero stride, the read loop of src/extract_frames.py:109-121
saves exactly the frames at indices that are multiples of the stride and
numbers them consecutively from the incoming counter. -/
theorem sampleLoop_eq (m : Int) (hm : m ≠ 0) :
    ∀ (r idx c : Nat),
      sampleLoop m idx c r =
        .ok (withSeq c (hitIdxs m idx r), c + (hitIdxs m idx r).length)
  | 0, idx, c => by simp [sampleLoop, hitIdxs_nil, withSeq]
  | r + 1, idx, c => by
      rw [hitIdxs_succ]
      by_cases h : (idx : Int) % m = 0
      · simp only [h, if_true, List.singleton_append]
        unfold sampleLoop
        rw [if_neg hm, if_pos h, sampleLoop_eq m hm r (idx + 1) (c + 1)]
        simp [withSeq, List.length_cons]
        omega
      · simp only [h, if_false, List.nil_append]
        unfold sampleLoop
        rw [if_neg hm, if_neg h, sampleLoop_eq m hm r (idx + 1) c]

theorem sampleLoop_ok_counters (m : Int) :
    ∀ (r idx c : Nat) (l : List (Nat × Nat)) (c' : Nat),
      sampleLoop m idx c r = .ok (l, c') →
      l.map Prod.snd = List.range' c l.length ∧ c' = c + l.length
  | 0, idx, c, l, c' => by
      intro h
      simp only [sampleLoop] at h
      cases h
      simp
  | r + 1, idx, c, l, c' => by
      intro h
      simp only [sampleLoop] at h
      by_cases hm : m = 0
      · rw [if_pos hm] at h; cases h
      · rw [if_neg hm] at h
        by_cases hd : (idx : Int) % m = 0
        · rw [if_pos hd] at h
          cases hrec : sampleLoop m (idx + 1) (c + 1) r with
          | error e => rw [hrec] at h; cases h
          | ok p =>
              rw [hrec] at h
              cases h
              rcases sampleLoop_ok_counters m r (idx + 1) (c + 1) p.1 p.2 (by
                rw [hrec]) with ⟨hmap, hc⟩
              constructor
              · simp [List.range'_succ, hmap]
              · simp only [List.length_cons]; omega
        · rw [if_neg hd] at h
          exact sampleLoop_ok_counters m r (idx + 1) c l c' h

/-- In every branch, `processVideo` appends exactly one `(camera, date)`
directory-creation record, before the video is even opened
(src/extract_frames.py:82-85). -/
theorem processVideo_dirs (cfg : Cfg) (st : ExtractState) (v : Video) :
    (processVideo cfg st v).1.dirs =
      st.dirs ++ [(cfg.camera_name, parse_date_from_filename v.name)] := by
  unfold processVideo
  by_cases ho : v.openable
  · by_cases hres : v.width ≠ cfg.expected_width ∨ v.height ≠ cfg.expected_height
    · simp [ho, hres]
    · simp only [ho, Bool.not_true, Bool.false_eq_true, if_false, hres, if_false]
      cases hsl : sampleLoop (strideOf v.fps cfg.interval_seconds) 0 st.counter v.frames with
      | error e => simp [hsl]
      | ok p => simp [hsl]
  · simp [ho]

/-- The claim-relevant invariant of the shared counter: the sequence numbers
written so far are exactly `1, 2, …, n` in write order, and the counter is
poised at `n + 1`. -/
def SeqInv (st : ExtractState) : Prop :=
  st.saved.map (fun e => e.seq) = List.range' 1 st.saved.length ∧
  st.counter = st.saved.length + 1

/-- Every frame written so far is named `c15_<seq zero-padded to 6>.jpg`. -/
def FnameInv (st : ExtractState) : Prop :=
  ∀ e ∈ st.saved, e.fname = "c15_" ++ padZ 6 e.seq ++ ".jpg"

theorem processVideo_seqInv (cfg : Cfg) (st : ExtractState) (v : Video)
    (h : SeqInv st) : SeqInv (processVideo cfg st v).1 := by
  rcases h with ⟨hmap, hc⟩
  unfold processVideo
  by_cases ho : v.openable
  · by_cases hres : v.width ≠ cfg.expected_width ∨ v.height ≠ cfg.expected_height
    · simp only [ho, Bool.not_true, Bool.false_eq_true, if_false, hres, if_true]
      exact ⟨hmap, hc⟩
    · simp only [ho, Bool.not_true, Bool.false_eq_true, if_false, hres, if_false]
      cases hsl : sampleLoop (strideOf v.fps cfg.interval_seconds) 0 st.counter v.frames with
      | error e => exact ⟨hmap, hc⟩
      | ok p =>
          rcases sampleLoop_ok_counters _ _ _ _ p.1 p.2 (by rw [hsl]) with ⟨hsnd, hc'⟩
          constructor
          · simp only [List.map_append, List.length_append, List.map_map, List.length_map]
            rw [hmap]
            rw [show (fun e : SavedFrame => e.seq) ∘ (fun x : Nat × Nat =>
                (⟨v.name, parse_date_from_filename v.name, x.1, x.2,
                  "c15_" ++ padZ 6 x.2 ++ ".jpg"⟩ : SavedFrame)) = Prod.snd from rfl]
            rw [hsnd, hc]
            have harr := List.range'_append 1 st.saved.length p.1.length 1
            simp only [one_mul] at harr
            rw [Nat.add_comm 1 st.saved.length] at harr
            rw [Nat.add_comm st.saved.length p.1.length]
            exact harr
          · simp only [List.length_append, List.length_map]
            omega
  · simp only [ho, Bool.not_false, if_true]
    exact ⟨hmap, hc⟩

theorem processVideo_fnameInv (cfg : Cfg) (st : ExtractState) (v : Video)
    (h : FnameInv st) : FnameInv (processVideo cfg st v).1 := by
  unfold processVideo
  by_cases ho : v.openable
  · by_cases hres : v.width ≠ cfg.expected_width ∨ v.height ≠ cfg.expected_height
    · simp only [ho, Bool.not_true, Bool.false_eq_true, if_false, hres, if_true]
      exact h
    · simp only [ho, Bool.not_true, Bool.false_eq_true, if_false, hres, if_false]
      cases hsl : sampleLoop (strideOf v.fps cfg.interval_seconds) 0 st.counter v.frames with
      | error e => exact h
      | ok p =>
          intro e he
          simp only [List.mem_append] at he
          rcases he with he | he
          · exact h e he
          · rcases List.mem_map.mp he with ⟨x, _, rfl⟩
            rfl
  · simp only [ho, Bool.not_false, if_true]
    exact h

theorem processFiles_seqInv (cfg : Cfg) :
    ∀ (vs : List Video) (st : ExtractState), SeqInv st →
      SeqInv (processFiles cfg st vs).1
  | [], st, h => h
  | v :: vs, st, h => by
      unfold processFiles
      cases hpv : processVideo cfg st v with
      | mk st' oe =>
          cases oe with
          | none =>
              have := processVideo_seqInv cfg st v h
              rw [hpv] at this
              exact processFiles_seqInv cfg vs st' this
          | some e =>
              have := processVideo_seqInv cfg st v h
              rw [hpv] at this
              exact this

theorem processFiles_fnameInv (cfg : Cfg) :
    ∀ (vs : List Video) (st : ExtractState), FnameInv st →
      FnameInv (processFiles cfg st vs).1
  | [], st, h => h
  | v :: vs, st, h => by
      unfold processFiles
      cases hpv : processVideo cfg st v with
      | mk st' oe =>
          cases oe with
          | none =>
              have := processVideo_fnameInv cfg st v h
              rw [hpv] at this
              exact processFiles_fnameInv cfg vs st' this
          | some e =>
              have := processVideo_fnameInv cfg st v h
              rw [hpv] at this
              exact this

theorem processFiles_dirs_mono (cfg : Cfg) :
    ∀ (vs : List Video) (st : ExtractState) (a : String × String),
      a ∈ st.dirs → a ∈ (processFiles cfg st vs).1.dirs
  | [], st, a, ha => ha
  | v :: vs, st, a, ha => by
      unfold processFiles
      have hmem : a ∈ (processVideo cfg st v).1.dirs := by
        rw [processVideo_dirs]
        exact List.mem_append_left _ ha
      cases hpv : processVideo cfg st v with
      | mk st' oe =>
          rw [hpv] at hmem
          cases oe with
          | none => exact processFiles_dirs_mono cfg vs st' a hmem
          | some e => exact hmem

theorem processFiles_mem_dirs (cfg : Cfg) :
    ∀ (vs : List Video) (st : ExtractState) (v : Video),
      v ∈ vs → (processFiles cfg st vs).2 = none →
      (cfg.camera_name, parse_date_from_filename v.name) ∈ (processFiles cfg st vs).1.dirs
  | [], st, v, hv, _ => by cases hv
  | w :: vs, st, v, hv, hok => by
      unfold processFiles at hok ⊢
      cases hpv : processVideo cfg st w with
      | mk st' oe =>
          rw [hpv] at hok
          cases oe with
          | some e => simp at hok
          | none =>
              rcases List.mem_cons.mp hv with rfl | hv'
              · have hmem : (cfg.camera_name, parse_date_from_filename v.name) ∈ st'.dirs := by
                  have := processVideo_dirs cfg st v
                  rw [hpv] at this
                  rw [this]
                  exact List.mem_append_right _ (List.mem_singleton.mpr rfl)
                exact processFiles_dirs_mono cfg vs st' _ hmem
              · exact processFiles_mem_dirs cfg vs st' v hv' hok

/-- The resolution-mismatch branch of `processVideo`
(src/extract_frames.py:100-103): directory created, skip logged, nothing
else — no frames, no counter change, no exception. -/
theorem processVideo_res_skip (cfg : Cfg) (st : ExtractState) (v : Video)
    (ho : v.openable = true)
    (hres : v.width ≠ cfg.expected_width ∨ v.height ≠ cfg.expected_height) :
    processVideo cfg st v =
      ({ st with
          dirs := st.dirs ++ [(cfg.camera_name, parse_date_from_filename v.name)]
          skips := st.skips ++ ["resolution mismatch: " ++ v.name] },
       none) := by
  unfold processVideo
  simp [ho, hres]

/-- The successful-sampling branch of `processVideo`
(src/extract_frames.py:105-121): for a readable, resolution-matching video
with nonzero stride `m`, the emitted frames are the multiples of `m` among
the frame indices, numbered consecutively from the incoming counter. -/
theorem processVideo_sample (cfg : Cfg) (st : ExtractState) (v : Video)
    (ho : v.openable = true)
    (hw : v.width = cfg.expected_width) (hh : v.height = cfg.expected_height)
    (hm : strideOf v.fps cfg.interval_seconds ≠ 0) :
    processVideo cfg st v =
      ({ st with
          dirs := st.dirs ++ [(cfg.camera_name, parse_date_from_filename v.name)]
          counter := st.counter +
            (hitIdxs (strideOf v.fps cfg.interval_seconds) 0 v.frames).length
          saved := st.saved ++
            (withSeq st.counter
              (hitIdxs (strideOf v.fps cfg.interval_seconds) 0 v.frames)).map
              (fun p => ⟨v.name, parse_date_from_filename v.name, p.1, p.2,
                "c15_" ++ padZ 6 p.2 ++ ".jpg"⟩) },
       none) := by
  have hres : ¬ (v.width ≠ cfg.expected_width ∨ v.height ≠ cfg.expected_height) := by
    simp [hw, hh]
  unfold processVideo
  simp only [ho, Bool.not_true, Bool.false_eq_true, if_false, hres]
  rw [sampleLoop_eq _ hm]

/-- Continuing the batch after a file that `processVideo` finishes without an
exception (src/extract_frames.py:77: the `for` loop just moves on). -/
theorem processFiles_cons_ok (cfg : Cfg) (st st' : ExtractState) (v : Video)
    (vs : List Video) (h : processVideo cfg st v = (st', none)) :
    processFiles cfg st (v :: vs) = processFiles cfg st' vs := by
  simp only [processFiles]
  rw [h]

theorem daysInMonth_le_31 (y m : Nat) : daysInMonth y m ≤ 31 := by
  unfold daysInMonth
  split_ifs <;> omega

theorem digitChar_isDigit {k : Nat} (hk : k < 10) :
    (Nat.digitChar k).isDigit = true := by
  interval_cases k <;> decide

theorem digitChar_toNat {k : Nat} (hk : k < 10) :
    (Nat.digitChar k).toNat = 48 + k := by
  interval_cases k <;> decide

/-- The wire-format core of claim C3: on any constructible datetime the
formatted string parses back, via `sinceFields`, to exactly the five fields
that went in — so it is sixteen characters of the exact shape
`YYYY/MM/DD HH:MM`, zero-padded, with no seconds or microseconds. -/
theorem sinceFields_format (dt : DT) (h : ValidDT dt) :
    ∀ s, format_since (some dt) = some s →
      sinceFields s = some (dt.year, dt.month, dt.day, dt.hour, dt.minute) := by
  intro s hs
  obtain ⟨hy1, hy2, hm1, hm2, hd1, hd2, hh, hmi, _, _⟩ := h
  simp only [format_since, Option.some.injEq] at hs
  subst hs
  show sinceFieldsChars _ = _
  have hid : ∀ k : Nat, (Nat.digitChar (k % 10)).isDigit = true := by
    intro k; exact digitChar_isDigit (Nat.mod_lt _ (by omega))
  have htn : ∀ k : Nat, (Nat.digitChar (k % 10)).toNat = 48 + k % 10 := by
    intro k; exact digitChar_toNat (Nat.mod_lt _ (by omega))
  rw [show (fourDig dt.year ++ "/" ++ twoDig dt.month ++ "/" ++ twoDig dt.day
        ++ " " ++ twoDig dt.hour ++ ":" ++ twoDig dt.minute).data =
      [Nat.digitChar (dt.year / 1000 % 10), Nat.digitChar (dt.year / 100 % 10),
       Nat.digitChar (dt.year / 10 % 10), Nat.digitChar (dt.year % 10), '/',
       Nat.digitChar (dt.month / 10 % 10), Nat.digitChar (dt.month % 10), '/',
       Nat.digitChar (dt.day / 10 % 10), Nat.digitChar (dt.day % 10), ' ',
       Nat.digitChar (dt.hour / 10 % 10), Nat.digitChar (dt.hour % 10), ':',
       Nat.digitChar (dt.minute / 10 % 10), Nat.digitChar (dt.minute % 10)] from rfl]
  have hd31 : dt.day ≤ 31 := le_trans hd2 (daysInMonth_le_31 dt.year dt.month)
  simp only [sinceFieldsChars]
  rw [if_pos (by simp [hid])]
  simp only [Option.some.injEq, Prod.mk.injEq]
  refine ⟨?_, ?_, ?_, ?_, ?_⟩
  · rw [htn (dt.year / 1000), htn (dt.year / 100), htn (dt.year / 10), htn dt.year]
    omega
  · rw [htn (dt.month / 10), htn dt.month]
    omega
  · rw [htn (dt.day / 10), htn dt.day]
    omega
  · rw [htn (dt.hour / 10), htn dt.hour]
    omega
  · rw [htn (dt.minute / 10), htn dt.minute]
    omega

/-! ### Claim theorems -/

/-- Claim C1, counterexample: a successful fetch cycle does **not** leave the
persisted cursor equal to the completion time of the fetch.  Starting from a
store whose cursor is `2025-11-16T23:59:59`, running the cycle at
`2025-11-21 10:00` (so every instant of the cycle, in particular its
completion, is on 2025-11-21) with the vendor call succeeding, the cursor
afterwards still reads `2025-11-16 23:59:59`, which is not the completion
time. -/
theorem c1_counterexample :
    (ingest_new_clips ⟨.valid (.str "2025-11-16T23:59:59"), false⟩
        ⟨2025, 11, 21, 10, 0, 0, 0⟩ true).outcome = .ok () ∧
    get_last_downloaded_at
        (ingest_new_clips ⟨.valid (.str "2025-11-16T23:59:59"), false⟩
          ⟨2025, 11, 21, 10, 0, 0, 0⟩ true).fs.stateFile =
      .ok (some ⟨2025, 11, 16, 23, 59, 59, 0⟩, false) ∧
    (⟨2025, 11, 16, 23, 59, 59, 0⟩ : DT) ≠ ⟨2025, 11, 21, 10, 0, 0, 0⟩ :=
  ⟨rfl, rfl, by decide⟩

/-- Claim C1, amended: the failure half of the claim holds, but so does its
mirror image — `ingest_new_clips` contains no statement that writes
`state.json`, so after a cycle the persisted state (hence the cursor) equals
the state before the attempt whether the fetch succeeded or raised; in
particular a successful fetch does not advance the cursor to its completion
time (or to anything else). -/
theorem c1_cycle_never_writes_state (fs : IngestFS) (now : DT) (fetchOk : Bool) :
    (ingest_new_clips fs now fetchOk).fs.stateFile = fs.stateFile ∧
    get_last_downloaded_at (ingest_new_clips fs now fetchOk).fs.stateFile =
      get_last_downloaded_at fs.stateFile :=
  ⟨rfl, rfl⟩

/-- Claim C2, counterexample: with a present, parseable cursor
`2025-11-15T12:34:56` and `now = 2025-11-21 10:00`, the `since` value handed
to the fetch step is the fixed fallback `"2025/11/20 09:00"`, not the cursor
(whose wire form would be `"2025/11/15 12:34"`) — resume exactness fails. -/
theorem c2_counterexample :
    get_last_downloaded_at (.valid (.str "2025-11-15T12:34:56")) =
      .ok (some ⟨2025, 11, 15, 12, 34, 56, 0⟩, false) ∧
    (ingest_new_clips ⟨.valid (.str "2025-11-15T12:34:56"), false⟩
        ⟨2025, 11, 21, 10, 0, 0, 0⟩ true).sincePassed = some "2025/11/20 09:00" ∧
    format_since (some ⟨2025, 11, 15, 12, 34, 56, 0⟩) = some "2025/11/15 12:34" ∧
    (ingest_new_clips ⟨.valid (.str "2025-11-15T12:34:56"), false⟩
        ⟨2025, 11, 21, 10, 0, 0, 0⟩ true).sincePassed ≠
      format_since (some ⟨2025, 11, 15, 12, 34, 56, 0⟩) :=
  ⟨rfl, by decide, by decide, by decide⟩

/-- Claim C2, amended: the `since` value passed to the fetch step is always
the fallback — the previous calendar day of `now` at 09:00, formatted
`YYYY/MM/DD HH:MM` — regardless of the persisted cursor, which
`ingest_new_clips` never reads; in the concrete scenario
`now = 2025-11-21 10:00` it is the string `"2025/11/20 09:00"` (so the
cursor-absent half of the claim holds, the cursor-present half does not). -/
theorem c2_since_is_fixed_window :
    (∀ (fs : IngestFS) (now : DT) (fetchOk : Bool),
       (ingest_new_clips fs now fetchOk).sincePassed =
         format_since (some (at9am (prevDay now)))) ∧
    format_since (some (at9am (prevDay ⟨2025, 11, 21, 10, 0, 0, 0⟩))) =
      some "2025/11/20 09:00" :=
  ⟨fun _ _ _ => rfl, by decide⟩

/-- Claim C3: `format_since` meets the wire-format contract.  `None` maps to
an explicit absent value (never an empty string); every constructible
datetime maps to a string of the exact zero-padded form `YYYY/MM/DD HH:MM`
whose five numeric fields are exactly the datetime's year, month, day, hour
and minute (so seconds and microseconds are discarded — the minute is
untouched, i.e. truncation, not rounding); and the output genuinely ignores
the second and microsecond fields. -/
theorem c3_format_since_wire_format :
    format_since none = none ∧
    (∀ dt : DT, ValidDT dt →
      ∃ s, format_since (some dt) = some s ∧ isSinceForm s = true ∧
        sinceFields s = some (dt.year, dt.month, dt.day, dt.hour, dt.minute) ∧
        s ≠ "") ∧
    (∀ dt : DT, format_since (some dt) =
      format_since (some ⟨dt.year, dt.month, dt.day, dt.hour, dt.minute, 0, 0⟩)) := by
  refine ⟨rfl, ?_, fun dt => rfl⟩
  intro dt h
  refine ⟨_, rfl, ?_, sinceFields_format dt h _ rfl, ?_⟩
  · unfold isSinceForm
    rw [sinceFields_format dt h _ rfl]
    rfl
  · intro he
    have hf := sinceFields_format dt h _ rfl
    rw [he] at hf
    exact Option.noConfusion hf

/-- Witness for claim C3 at the concrete datetime
2025-11-20 14:30:59.123456: it is constructible, and the formatted string
parses back to (2025, 11, 20, 14, 30). -/
theorem c3_format_since_wire_format_witness :
    ValidDT ⟨2025, 11, 20, 14, 30, 59, 123456⟩ ∧
    (∃ s, format_since (some ⟨2025, 11, 20, 14, 30, 59, 123456⟩) = some s ∧
      isSinceForm s = true ∧ sinceFields s = some (2025, 11, 20, 14, 30) ∧
      s ≠ "") :=
  ⟨by decide,
   c3_format_since_wire_format.2.1 ⟨2025, 11, 20, 14, 30, 59, 123456⟩ (by decide)⟩

/-- Claim C4, counterexample: reading persisted state **can** raise — a state
file that exists but is unreadable as JSON makes `load_state` propagate
`json.JSONDecodeError` instead of returning the default state. -/
theorem c4_counterexample :
    load_state .invalidJson = .error "json.JSONDecodeError" := rfl

/-- Claim C4, amended: a missing state file yields the default state (absent
cursor) and an absent-or-null cursor reads back as absent without error; a
malformed timestamp *string* inside a valid store makes the accessor return
absent with the warning logged, not an error, and a well-formed one parses;
but an existing store that is unreadable as JSON makes `load_state` raise
(the counterexample above), so "reading persisted state never raises" holds
only for the per-value malformed-timestamp case, not for a malformed store. -/
theorem c4_state_reading_amended :
    load_state .absent = .ok .null ∧
    get_last_downloaded_at .absent = .ok (none, false) ∧
    get_last_downloaded_at (.valid .null) = .ok (none, false) ∧
    (∀ ts : String, fromisoformat ts = none →
      get_last_downloaded_at (.valid (.str ts)) = .ok (none, true)) ∧
    (∀ (ts : String) (dt : DT), fromisoformat ts = some dt →
      get_last_downloaded_at (.valid (.str ts)) = .ok (some dt, false)) := by
  refine ⟨rfl, rfl, rfl, ?_, ?_⟩
  · intro ts h
    simp only [get_last_downloaded_at, load_state]
    rw [h]
  · intro ts dt h
    simp only [get_last_downloaded_at, load_state]
    rw [h]

/-- Witness for claim C4 at the malformed timestamp string
`"not-a-real-timestamp"` (the one the repository's own test uses): it fails
to parse, and the accessor returns absent-with-warning rather than raising. -/
theorem c4_state_reading_amended_witness :
    fromisoformat "not-a-real-timestamp" = none ∧
    get_last_downloaded_at (.valid (.str "not-a-real-timestamp")) =
      .ok (none, true) :=
  ⟨by decide, c4_state_reading_amended.2.2.2.1 "not-a-real-timestamp" (by decide)⟩

/-- Claim C5, counterexample: the stride is **not**
`round(frame_rate × interval_seconds)`.  For a 29.75 fps video with 31
readable frames and interval 1, the code emits frames 0 and 29 (stride
`int(29.75) = 29`), while the claimed stride `round(29.75) = 30` would make
29 a non-multiple: frame 29 is emitted yet `30 ∤ 29`, and the multiple 30
(< 31) is not emitted. -/
theorem c5_counterexample :
    ((processVideo cfg0 initES vTrunc).1.saved).map (fun e => e.frameIdx) = [0, 29] ∧
    round (vTrunc.fps * (cfg0.interval_seconds : ℚ)) = 30 ∧
    ¬ ((30 : Int) ∣ (29 : Int)) ∧
    (30 : Nat) < vTrunc.frames ∧
    (30 : Nat) ∉ ((processVideo cfg0 initES vTrunc).1.saved).map (fun e => e.frameIdx) := by
  refine ⟨by decide, ?_, by decide, by decide, by decide⟩
  show round ((mkRat 119 4) * (((1 : Int) : ℚ))) = 30
  rw [round_eq]
  norm_num [Rat.mkRat_eq_div]

/-- Claim C5, amended: the stride is `int(frame_rate × interval_seconds)` —
truncation toward zero, not rounding — and, for a readable
resolution-matching video with nonzero stride, exactly the frames whose
zero-based index is an exact multiple of that stride are emitted, starting
from index 0, with no exception. -/
theorem c5_stride_truncation (cfg : Cfg) (st : ExtractState) (v : Video)
    (ho : v.openable = true) (hw : v.width = cfg.expected_width)
    (hh : v.height = cfg.expected_height)
    (hm : strideOf v.fps cfg.interval_seconds ≠ 0) :
    strideOf v.fps cfg.interval_seconds = pyInt (v.fps * (cfg.interval_seconds : ℚ)) ∧
    (processVideo cfg st v).2 = none ∧
    ((processVideo cfg st v).1.saved).map (fun e => e.frameIdx) =
      st.saved.map (fun e => e.frameIdx) ++
        (List.range v.frames).filter
          (fun (i : Nat) => decide ((i : Int) % strideOf v.fps cfg.interval_seconds = 0)) ∧
    (∀ i : Int, i % strideOf v.fps cfg.interval_seconds = 0 ↔
      strideOf v.fps cfg.interval_seconds ∣ i) := by
  rw [processVideo_sample cfg st v ho hw hh hm]
  refine ⟨strideOf_eq_pyInt v.fps cfg.interval_seconds, rfl, ?_,
    fun i => ⟨Int.dvd_of_emod_eq_zero, Int.emod_eq_zero_of_dvd⟩⟩
  simp only [List.map_append, List.map_map]
  congr 1
  rw [show ((fun e : SavedFrame => e.frameIdx) ∘ (fun p : Nat × Nat =>
      (⟨v.name, parse_date_from_filename v.name, p.1, p.2,
        "c15_" ++ padZ 6 p.2 ++ ".jpg"⟩ : SavedFrame))) = Prod.fst from rfl]
  rw [withSeq_map_fst]
  unfold hitIdxs
  rw [List.range_eq_range']

/-- Witness for claim C5 (amended) at the 29.75 fps, 31-frame video: the
stride is 29 and the emitted indices are the multiples of 29 below 31. -/
theorem c5_stride_truncation_witness :
    (vTrunc.openable = true ∧ vTrunc.width = cfg0.expected_width ∧
     vTrunc.height = cfg0.expected_height ∧
     strideOf vTrunc.fps cfg0.interval_seconds ≠ 0) ∧
    (strideOf vTrunc.fps cfg0.interval_seconds =
        pyInt (vTrunc.fps * (cfg0.interval_seconds : ℚ)) ∧
      (processVideo cfg0 initES vTrunc).2 = none ∧
      ((processVideo cfg0 initES vTrunc).1.saved).map (fun e => e.frameIdx) =
        initES.saved.map (fun e => e.frameIdx) ++
          (List.range vTrunc.frames).filter
            (fun (i : Nat) => decide ((i : Int) % strideOf vTrunc.fps cfg0.interval_seconds = 0)) ∧
      (∀ i : Int, i % strideOf vTrunc.fps cfg0.interval_seconds = 0 ↔
        strideOf vTrunc.fps cfg0.interval_seconds ∣ i)) :=
  ⟨⟨rfl, rfl, rfl, by decide⟩,
   c5_stride_truncation cfg0 initES vTrunc rfl rfl rfl (by decide)⟩

/-- Claim C6 (a code bug): a zero-frame-rate video is *not* skipped with a
warning.  With `fps = 0` the stride is `int(0 × 1) = 0`, and the first
evaluation of `frame_idx % frame_interval` raises an uncaught
`ZeroDivisionError`: on the batch `[vZeroFps, wGood]` the run aborts with
that exception, zero frames are written, no skip/warning line is printed,
and the second (healthy) video is never reached — its date directory is
never created. -/
theorem c6_zero_fps_crash :
    strideOf vZeroFps.fps cfg0.interval_seconds = 0 ∧
    (extract_frames_from_folder cfg0 [vZeroFps, wGood]).2 = some "ZeroDivisionError" ∧
    (extract_frames_from_folder cfg0 [vZeroFps, wGood]).1.saved = [] ∧
    (extract_frames_from_folder cfg0 [vZeroFps, wGood]).1.skips = [] ∧
    ("sort_C15", "2025-11-21") ∉ (extract_frames_from_folder cfg0 [vZeroFps, wGood]).1.dirs :=
  ⟨by decide, by decide, by decide, by decide, by decide⟩

/-- Claim C7: a readable video whose declared resolution differs from the
configured expected resolution is skipped entirely — its date directory is
created and a skip line is logged, but no frame is written, the counter does
not move, no exception is raised, and the batch continues with exactly the
remaining files. -/
theorem c7_resolution_mismatch_skip (cfg : Cfg) (st : ExtractState) (v : Video)
    (vs : List Video) (ho : v.openable = true)
    (hres : v.width ≠ cfg.expected_width ∨ v.height ≠ cfg.expected_height) :
    processVideo cfg st v =
      ({ st with
          dirs := st.dirs ++ [(cfg.camera_name, parse_date_from_filename v.name)]
          skips := st.skips ++ ["resolution mismatch: " ++ v.name] }, none) ∧
    (processVideo cfg st v).1.saved = st.saved ∧
    (processVideo cfg st v).1.counter = st.counter ∧
    processFiles cfg st (v :: vs) =
      processFiles cfg
        { st with
            dirs := st.dirs ++ [(cfg.camera_name, parse_date_from_filename v.name)]
            skips := st.skips ++ ["resolution mismatch: " ++ v.name] } vs := by
  have h := processVideo_res_skip cfg st v ho hres
  exact ⟨h, by rw [h], by rw [h], processFiles_cons_ok _ _ _ _ _ h⟩

/-- Witness for claim C7 at the 1280×720 video `vMism` under the 1920×1080
configuration, with one further file in the batch. -/
theorem c7_resolution_mismatch_skip_witness :
    (vMism.openable = true ∧
     (vMism.width ≠ cfg0.expected_width ∨ vMism.height ≠ cfg0.expected_height)) ∧
    (processVideo cfg0 initES vMism =
      ({ initES with
          dirs := initES.dirs ++ [(cfg0.camera_name, parse_date_from_filename vMism.name)]
          skips := initES.skips ++ ["resolution mismatch: " ++ vMism.name] }, none) ∧
     (processVideo cfg0 initES vMism).1.saved = initES.saved ∧
     (processVideo cfg0 initES vMism).1.counter = initES.counter ∧
     processFiles cfg0 initES (vMism :: [wGood]) =
       processFiles cfg0
         { initES with
             dirs := initES.dirs ++ [(cfg0.camera_name, parse_date_from_filename vMism.name)]
             skips := initES.skips ++ ["resolution mismatch: " ++ vMism.name] } [wGood]) :=
  ⟨⟨rfl, by decide⟩,
   c7_resolution_mismatch_skip cfg0 initES vMism [wGood] rfl (by decide)⟩

/-- Claim C8: videos are processed in ascending (code-point) filename order —
the processed sequence is a sorted permutation of the matching files — and
the emitted frames carry the fixed prefix `c15_` with a zero-padded (width 6)
counter whose values across the whole run are exactly 1, 2, …, N in write
order (never reset per video or date); in the concrete two-video scenario
(A before B, different durations, 3 frames each) A's frames get sequence
numbers 1, 2, 3 and B's get 4, 5, 6. -/
theorem c8_ordering_and_numbering :
    (∀ (cfg : Cfg) (entries : List Video),
      extract_frames_from_folder cfg entries =
        processFiles cfg initES (sortVideos (entries.filter (fun v => matchesExt v.name))) ∧
      (sortVideos (entries.filter (fun v => matchesExt v.name))).Pairwise nameLe ∧
      (sortVideos (entries.filter (fun v => matchesExt v.name))).Perm
        (entries.filter (fun v => matchesExt v.name)) ∧
      ((extract_frames_from_folder cfg entries).1.saved).map (fun e => e.seq) =
        List.range' 1 ((extract_frames_from_folder cfg entries).1.saved).length ∧
      (∀ e ∈ (extract_frames_from_folder cfg entries).1.saved,
        e.fname = "c15_" ++ padZ 6 e.seq ++ ".jpg")) ∧
    ((extract_frames_from_folder cfg0 [vB8, vA8]).1.saved).map
        (fun e => (e.video, e.seq, e.fname)) =
      [(vA8.name, 1, "c15_000001.jpg"), (vA8.name, 2, "c15_000002.jpg"),
       (vA8.name, 3, "c15_000003.jpg"), (vB8.name, 4, "c15_000004.jpg"),
       (vB8.name, 5, "c15_000005.jpg"), (vB8.name, 6, "c15_000006.jpg")] ∧
    (extract_frames_from_folder cfg0 [vB8, vA8]).2 = none := by
  refine ⟨?_, by decide, by decide⟩
  intro cfg entries
  refine ⟨rfl, sortVideos_pairwise _, sortVideos_perm _, ?_, ?_⟩
  · exact (processFiles_seqInv cfg _ initES ⟨rfl, rfl⟩).1
  · exact processFiles_fnameInv cfg _ initES (fun e he => absurd he (List.not_mem_nil e))

/-- Witness for claim C8's per-frame naming clause at the first frame of the
concrete two-video run. -/
theorem c8_ordering_and_numbering_witness :
    ((⟨vA8.name, "2025-11-20", 0, 1, "c15_000001.jpg"⟩ : SavedFrame) ∈
      (extract_frames_from_folder cfg0 [vB8, vA8]).1.saved) ∧
    (⟨vA8.name, "2025-11-20", 0, 1, "c15_000001.jpg"⟩ : SavedFrame).fname =
      "c15_" ++ padZ 6 (⟨vA8.name, "2025-11-20", 0, 1, "c15_000001.jpg"⟩ : SavedFrame).seq ++ ".jpg" :=
  ⟨by decide,
   (c8_ordering_and_numbering.1 cfg0 [vB8, vA8]).2.2.2.2 _ (by decide)⟩

/-- Claim C9: the capture date is derived by trying, in order, (a) the
underscore-delimited segments as `%Y-%m-%d` (first successful segment wins),
(b) the trailing 19 characters as `%Y-%m-%d_%H-%M-%S`, (c) the sentinel
`"unknown_date"`; and the three concrete examples behave as stated. -/
theorem c9_filename_date_parsing :
    parse_date_from_filename "2025-11-20_09-10-11.mp4" = "2025-11-20" ∧
    parse_date_from_filename "clip_2025-11-20_09-10-11.mp4" = "2025-11-20" ∧
    parse_date_from_filename "random_name.mp4" = "unknown_date" ∧
    (∀ (fn : String) (ymd : Nat × Nat × Nat),
      (splitChar '_' (splitextRoot fn.data)).findSome? strptimeYMD = some ymd →
      parse_date_from_filename fn = formatYMD ymd) ∧
    (∀ (fn : String) (ymd : Nat × Nat × Nat),
      (splitChar '_' (splitextRoot fn.data)).findSome? strptimeYMD = none →
      strptimeYMDHMS
        ((splitextRoot fn.data).drop ((splitextRoot fn.data).length - 19)) = some ymd →
      parse_date_from_filename fn = formatYMD ymd) ∧
    (∀ fn : String,
      (splitChar '_' (splitextRoot fn.data)).findSome? strptimeYMD = none →
      strptimeYMDHMS
        ((splitextRoot fn.data).drop ((splitextRoot fn.data).length - 19)) = none →
      parse_date_from_filename fn = "unknown_date") := by
  refine ⟨by decide, by decide, by decide, ?_, ?_, ?_⟩
  · intro fn ymd h
    simp only [parse_date_from_filename]
    rw [h]
  · intro fn ymd h1 h2
    simp only [parse_date_from_filename]
    rw [h1, h2]
  · intro fn h1 h2
    simp only [parse_date_from_filename]
    rw [h1, h2]

/-- Witness for claim C9's segment-first clause at
`"clip_2025-11-20_09-10-11.mp4"`: the second underscore segment parses as a
date and determines the result. -/
theorem c9_filename_date_parsing_witness :
    ((splitChar '_' (splitextRoot "clip_2025-11-20_09-10-11.mp4".data)).findSome?
        strptimeYMD = some (2025, 11, 20)) ∧
    parse_date_from_filename "clip_2025-11-20_09-10-11.mp4" = formatYMD (2025, 11, 20) :=
  ⟨by decide,
   c9_filename_date_parsing.2.2.2.1 "clip_2025-11-20_09-10-11.mp4" (2025, 11, 20) (by decide)⟩

/-- Claim C10: in every branch — unopenable file and resolution mismatch
included — `processVideo` records the creation of `camera/date` before the
video is opened, so a skipped file still gets its (possibly empty) date
directory; an unopenable file produces exactly the directory plus a skip
line; and on a run that completes, every matching input file's date
directory is present in the output tree. -/
theorem c10_mkdir_before_open :
    (∀ (cfg : Cfg) (st : ExtractState) (v : Video),
      (processVideo cfg st v).1.dirs =
        st.dirs ++ [(cfg.camera_name, parse_date_from_filename v.name)]) ∧
    (∀ (cfg : Cfg) (st : ExtractState) (v : Video), v.openable = false →
      processVideo cfg st v =
        ({ st with
            dirs := st.dirs ++ [(cfg.camera_name, parse_date_from_filename v.name)]
            skips := st.skips ++ ["Could not open " ++ v.name] }, none)) ∧
    (∀ (cfg : Cfg) (entries : List Video) (v : Video),
      v ∈ entries → matchesExt v.name = true →
      (extract_frames_from_folder cfg entries).2 = none →
      (cfg.camera_name, parse_date_from_filename v.name) ∈
        (extract_frames_from_folder cfg entries).1.dirs) := by
  refine ⟨processVideo_dirs, ?_, ?_⟩
  · intro cfg st v hv
    unfold processVideo
    simp [hv]
  · intro cfg entries v hv hext hok
    have hvf : v ∈ entries.filter (fun v => matchesExt v.name) :=
      List.mem_filter.mpr ⟨hv, hext⟩
    have hvs : v ∈ sortVideos (entries.filter (fun v => matchesExt v.name)) :=
      ((sortVideos_perm _).mem_iff).mpr hvf
    exact processFiles_mem_dirs cfg _ initES v hvs hok

/-- Witness for claim C10's run-level clause: the mismatched-resolution video
`vMism`, alone in the directory, still gets its date directory created even
though it contributes zero frames. -/
theorem c10_mkdir_before_open_witness :
    (vMism ∈ [vMism] ∧ matchesExt vMism.name = true ∧
     (extract_frames_from_folder cfg0 [vMism]).2 = none) ∧
    (cfg0.camera_name, parse_date_from_filename vMism.name) ∈
      (extract_frames_from_folder cfg0 [vMism]).1.dirs :=
  ⟨⟨by decide, by decide, by decide⟩,
   c10_mkdir_before_open.2.2 cfg0 [vMism] vMism (by decide) (by decide) (by decide)⟩
